import Mathlib

/-!
Verification development for the mcp-pyzotero adapter (src/zotero.py).

Python strings are modelled as lists of characters (`Str`); Python dicts as
association lists with first-match lookup and in-place overwrite.  All
definitions are translated from src/zotero.py; line numbers in the comments
refer to that file.
-/

abbrev Str := List Char

/-! ## Python string helpers -/

/-- Characters removed by Python `str.strip()` (ASCII whitespace). -/
def pyIsSpace (c : Char) : Bool :=
  (c == ' ') || (c == '\t') || (c == '\n') || (c == '\r') || (c == '\x0b') || (c == '\x0c')

/-- Leading-whitespace removal, as in Python `str.strip()` (left half). -/
def lstrip : Str → Str
  | [] => []
  | c :: rest => if pyIsSpace c then lstrip rest else c :: rest

/-- Trailing-whitespace removal, as in Python `str.strip()` (right half). -/
def rstrip : Str → Str
  | [] => []
  | c :: rest =>
    match rstrip rest with
    | [] => if pyIsSpace c then [] else [c]
    | r :: rs => c :: r :: rs

/-- Python `str.strip()`. -/
def pyStrip (s : Str) : Str := rstrip (lstrip s)

/-- `replaceAllGo pat rep fuel s` scans `s` left to right replacing every
non-overlapping occurrence of `pat` by `rep`, as Python `str.replace` does for
a non-empty pattern.  `fuel` bounds the number of scanning steps; each step
consumes at least one character, so `fuel = s.length` is always enough. -/
def replaceAllGo (pat rep : Str) : Nat → Str → Str
  | 0, s => s
  | _ + 1, [] => []
  | fuel + 1, c :: rest =>
    if pat.isPrefixOf (c :: rest) && !pat.isEmpty then
      rep ++ replaceAllGo pat rep fuel ((c :: rest).drop pat.length)
    else
      c :: replaceAllGo pat rep fuel rest

/-- Python `s.replace(pat, rep)` for a non-empty `pat`. -/
def replaceAll (pat rep s : Str) : Str := replaceAllGo pat rep s.length s

/-- `hasGt s` holds when `s` contains the character `>`. -/
def hasGt : Str → Bool
  | [] => false
  | c :: rest => (c == '>') || hasGt rest

/-- `hasTag s` holds when `s` contains a `<` with a `>` somewhere after it,
i.e. when the regex `<[^>]*>` (and hence any literal HTML tag) can match. -/
def hasTag : Str → Bool
  | [] => false
  | c :: rest => ((c == '<') && hasGt rest) || hasTag rest

/-! ### Lemmas about the string helpers -/

theorem hasGt_eq_true_of_mem {s : Str} (h : '>' ∈ s) : hasGt s = true := by
  induction s with
  | nil => cases h
  | cons c rest ih =>
    rcases List.mem_cons.mp h with h1 | h1
    · simp [hasGt, h1.symm]
    · simp [hasGt, ih h1]

theorem mem_of_hasGt {s : Str} (h : hasGt s = true) : '>' ∈ s := by
  induction s with
  | nil => simp [hasGt] at h
  | cons c rest ih =>
    simp only [hasGt, Bool.or_eq_true, beq_iff_eq] at h
    rcases h with h1 | h1
    · simp [h1]
    · exact List.mem_cons_of_mem _ (ih h1)

theorem hasGt_false_of_subset {s t : Str} (hsub : ∀ x, x ∈ t → x ∈ s)
    (h : hasGt s = false) : hasGt t = false := by
  cases ht : hasGt t
  · rfl
  · have := hasGt_eq_true_of_mem (hsub _ (mem_of_hasGt ht))
    rw [this] at h
    cases h

theorem hasTag_cons_false {c : Char} {rest : Str}
    (h : hasTag (c :: rest) = false) : hasTag rest = false := by
  simp only [hasTag, Bool.or_eq_false_iff] at h
  exact h.2

theorem hasGt_false_of_hasTag_lt {rest : Str}
    (h : hasTag ('<' :: rest) = false) : hasGt rest = false := by
  simp only [hasTag, Bool.or_eq_false_iff, Bool.and_eq_false_iff] at h
  rcases h.1 with h1 | h1
  · simp at h1
  · exact h1

/-- A string with the tag pattern stays tagged when extended on the right. -/
theorem hasTag_append_left {u : Str} (v : Str) (h : hasTag u = true) :
    hasTag (u ++ v) = true := by
  induction u with
  | nil => simp [hasTag] at h
  | cons c rest ih =>
    simp only [hasTag, Bool.or_eq_true, Bool.and_eq_true, beq_iff_eq] at h ⊢
    rcases h with ⟨h1, h2⟩ | h1
    · exact Or.inl ⟨h1, hasGt_eq_true_of_mem (List.mem_append_left _ (mem_of_hasGt h2))⟩
    · exact Or.inr (ih h1)

theorem isPrefixOf_exists_append {p s : Str} (h : p.isPrefixOf s = true) :
    ∃ t, s = p ++ t := by
  induction p generalizing s with
  | nil => exact ⟨s, rfl⟩
  | cons a as ih =>
    cases s with
    | nil => simp [List.isPrefixOf] at h
    | cons b bs =>
      simp only [List.isPrefixOf, Bool.and_eq_true, beq_iff_eq] at h
      obtain ⟨t, ht⟩ := ih h.2
      exact ⟨t, by simp [h.1, ht]⟩

/-- On a tag-free string, `str.replace` with a tagged pattern is the identity. -/
theorem replaceAllGo_id {pat : Str} (rep : Str) (hp : hasTag pat = true) :
    ∀ fuel s, hasTag s = false → replaceAllGo pat rep fuel s = s := by
  intro fuel
  induction fuel with
  | zero => intro s _; rfl
  | succ n ih =>
    intro s hs
    cases s with
    | nil => rfl
    | cons c rest =>
      have hg : pat.isPrefixOf (c :: rest) = false := by
        cases hpre : pat.isPrefixOf (c :: rest)
        · rfl
        · obtain ⟨t, ht⟩ := isPrefixOf_exists_append hpre
          rw [ht, hasTag_append_left t hp] at hs
          cases hs
      simp [replaceAllGo, hg, ih rest (hasTag_cons_false hs)]

theorem replaceAll_id {pat : Str} (rep : Str) (hp : hasTag pat = true)
    {s : Str} (hs : hasTag s = false) : replaceAll pat rep s = s :=
  replaceAllGo_id rep hp s.length s hs

/-! ## Tag stripping and link rewriting (zotero.py lines 183-186) -/

/-- One pass of `the tag-stripping regex of line 186`: at each `<` the characters up to
and including the first subsequent `>` are removed; a `<` with no later `>`
does not match and is kept.  Fuelled scanner; each step consumes at least one
character, so `fuel = s.length` is always enough. -/
def stripTagsGo : Nat → Str → Str
  | 0, s => s
  | _ + 1, [] => []
  | fuel + 1, c :: rest =>
    if c == '<' then
      match rest.dropWhile (fun x => !(x == '>')) with
      | [] => c :: stripTagsGo fuel rest
      | _ :: after => stripTagsGo fuel after
    else c :: stripTagsGo fuel rest

def stripTags (s : Str) : Str := stripTagsGo s.length s

/-- The literal prefix `<a href="` of the link regex. -/
def hrefPre : Str := ['<', 'a', ' ', 'h', 'r', 'e', 'f', '=', '"']

/-- Scanner for the non-greedy `(.*?)</a>` part of the link regex: returns the
text up to the first `</a>` together with the remainder after it, failing when
a newline intervenes (`.` does not match a newline) or no `</a>` follows. -/
def findCloseA : Str → Option (Str × Str)
  | [] => Option.none
  | c :: rest =>
    if List.isPrefixOf ['<', '/', 'a', '>'] (c :: rest) then
      some ([], (c :: rest).drop 4)
    else if c == '\n' then Option.none
    else
      match findCloseA rest with
      | some (t, a) => some (c :: t, a)
      | Option.none => Option.none

/-- Attempt to match `<a href="([^"]+)"[^>]*>(.*?)</a>` at the start of `s`;
on success, return the replacement `[text](href)` and the rest of the input
after the match. -/
def tryLink (s : Str) : Option (Str × Str) :=
  if hrefPre.isPrefixOf s then
    let s1 := s.drop 9
    let href := s1.takeWhile (fun x => !(x == '"'))
    let s2 := s1.dropWhile (fun x => !(x == '"'))
    if href.isEmpty then Option.none
    else
      match s2 with
      | [] => Option.none
      | _ :: s3 =>
        match s3.dropWhile (fun x => !(x == '>')) with
        | [] => Option.none
        | _ :: s5 =>
          match findCloseA s5 with
          | some (text, after) =>
            some ('[' :: text ++ ']' :: '(' :: href ++ [')'], after)
          | Option.none => Option.none
  else Option.none

/-- `re.sub` for the link regex: scan left to right, rewriting every match and
continuing after it.  Fuelled; each step consumes at least one character. -/
def linkSubGo : Nat → Str → Str
  | 0, s => s
  | _ + 1, [] => []
  | fuel + 1, c :: rest =>
    match tryLink (c :: rest) with
    | some (rep, after) => rep ++ linkSubGo fuel after
    | Option.none => c :: linkSubGo fuel rest

def linkSub (s : Str) : Str := linkSubGo s.length s

/-! ### Identity of the regex passes on tag-free strings -/

theorem mem_of_mem_dropWhile (p : Char → Bool) :
    ∀ (l : Str) (x : Char), x ∈ l.dropWhile p → x ∈ l := by
  intro l
  induction l with
  | nil => intro x h; cases h
  | cons c rest ih =>
    intro x h
    by_cases hp : p c
    · simp only [List.dropWhile, hp] at h
      exact List.mem_cons_of_mem _ (ih x h)
    · simp only [List.dropWhile, hp] at h
      simpa using h

theorem mem_of_mem_drop {l : Str} {n : Nat} {x : Char} (h : x ∈ l.drop n) :
    x ∈ l := List.mem_of_mem_drop h

theorem dropWhile_head_not (p : Char → Bool) :
    ∀ (l : Str) (x : Char) (xs : Str), l.dropWhile p = x :: xs → p x = false := by
  intro l
  induction l with
  | nil => intro x xs h; cases h
  | cons c rest ih =>
    intro x xs h
    by_cases hp : p c
    · simp only [List.dropWhile, hp] at h
      exact ih x xs h
    · simp only [List.dropWhile, hp] at h
      injection h with h1 h2
      rw [← h1]
      simpa using hp

theorem dropWhile_eq_nil_of_noGt :
    ∀ l : Str, hasGt l = false → l.dropWhile (fun x => !(x == '>')) = [] := by
  intro l
  induction l with
  | nil => intro _; rfl
  | cons c rest ih =>
    intro h
    simp only [hasGt, Bool.or_eq_false_iff] at h
    have hc : (c == '>') = false := h.1
    simp [List.dropWhile, hc, ih h.2]

theorem stripTagsGo_id : ∀ (fuel : Nat) (s : Str), hasTag s = false →
    stripTagsGo fuel s = s := by
  intro fuel
  induction fuel with
  | zero => intro s _; rfl
  | succ n ih =>
    intro s hs
    cases s with
    | nil => rfl
    | cons c rest =>
      by_cases hc : c = '<'
      · subst hc
        have hg : hasGt rest = false := hasGt_false_of_hasTag_lt hs
        have hdw := dropWhile_eq_nil_of_noGt rest hg
        simp [stripTagsGo, hdw, ih rest (hasTag_cons_false hs)]
      · have hc2 : (c == '<') = false := by simpa using hc
        simp [stripTagsGo, hc2, ih rest (hasTag_cons_false hs)]

theorem stripTags_id {s : Str} (hs : hasTag s = false) : stripTags s = s :=
  stripTagsGo_id s.length s hs

theorem tryLink_none_of_noTag {s : Str} (hs : hasTag s = false) :
    tryLink s = Option.none := by
  cases h : tryLink s with
  | none => rfl
  | some r =>
    exfalso
    unfold tryLink at h
    by_cases hpre : hrefPre.isPrefixOf s
    · rw [if_pos hpre] at h
      obtain ⟨t, ht⟩ := isPrefixOf_exists_append hpre
      -- s = '<' :: tail, where the tail contains no '>'
      have hs2 : hasTag ('<' :: (['a', ' ', 'h', 'r', 'e', 'f', '=', '"'] ++ t)) = false := by
        rw [← hs, ht]; rfl
      have hg : hasGt (['a', ' ', 'h', 'r', 'e', 'f', '=', '"'] ++ t) = false :=
        hasGt_false_of_hasTag_lt hs2
      -- the branch that produced `some` forces a '>' in the tail
      simp only at h
      split at h
      · cases h
      · split at h
        · cases h
        next s2h s3 hs2eq =>
          split at h
          · cases h
          next s4h s5 hs4eq =>
            -- the head of `dropWhile (fun x => !(x == '>'))` is a '>'
            have h4 : (fun x => !(x == '>')) s4h = false :=
              dropWhile_head_not _ _ _ _ hs4eq
            have h4gt : s4h = '>' := by
              simpa using h4
            -- s4h is a member of the tail of s
            have hmem4 : s4h ∈ s3.dropWhile (fun x => !(x == '>')) := by
              rw [hs4eq]; exact List.mem_cons_self _ _
            have hmem3 : s4h ∈ s3 := mem_of_mem_dropWhile _ _ _ hmem4
            have hmem2 : s4h ∈ s2h :: s3 := List.mem_cons_of_mem _ hmem3
            have hmemDW : s4h ∈ (s.drop 9).dropWhile (fun x => !(x == '"')) := by
              rw [hs2eq]; exact hmem2
            have hmem1 : s4h ∈ s.drop 9 := mem_of_mem_dropWhile _ _ _ hmemDW
            have hmemTail : s4h ∈ ['a', ' ', 'h', 'r', 'e', 'f', '=', '"'] ++ t := by
              have : s.drop 9 = (['a', ' ', 'h', 'r', 'e', 'f', '=', '"'] ++ t).drop 8 := by
                rw [ht]; rfl
              rw [this] at hmem1
              exact mem_of_mem_drop hmem1
            rw [h4gt] at hmemTail
            rw [hasGt_eq_true_of_mem hmemTail] at hg
            cases hg
    · rw [if_neg hpre] at h
      cases h

theorem linkSubGo_id : ∀ (fuel : Nat) (s : Str), hasTag s = false →
    linkSubGo fuel s = s := by
  intro fuel
  induction fuel with
  | zero => intro s _; rfl
  | succ n ih =>
    intro s hs
    cases s with
    | nil => rfl
    | cons c rest =>
      have hnone := tryLink_none_of_noTag hs
      simp [linkSubGo, hnone, ih rest (hasTag_cons_false hs)]

theorem linkSub_id {s : Str} (hs : hasTag s = false) : linkSub s = s :=
  linkSubGo_id s.length s hs

/-! ### Whitespace stripping lemmas -/

theorem mem_of_mem_rstrip : ∀ (l : Str) (x : Char), x ∈ rstrip l → x ∈ l := by
  intro l
  induction l with
  | nil => intro x h; cases h
  | cons c rest ih =>
    intro x h
    cases hr : rstrip rest with
    | nil =>
      rw [rstrip, hr] at h
      by_cases hsp : pyIsSpace c
      · rw [if_pos hsp] at h; cases h
      · rw [if_neg hsp] at h
        simp only [List.mem_singleton] at h
        simp [h]
    | cons r rs =>
      rw [rstrip, hr] at h
      rcases List.mem_cons.mp h with h1 | h1
      · simp [h1]
      · exact List.mem_cons_of_mem _ (ih x (hr ▸ h1))

theorem hasTag_cons_eq (c : Char) (X : Str) :
    hasTag (c :: X) = (((c == '<') && hasGt X) || hasTag X) := rfl

theorem hasTag_cons_of (c : Char) {X : Str} (hX : hasTag X = false)
    (hgt : (c == '<') = true → hasGt X = false) : hasTag (c :: X) = false := by
  rw [hasTag_cons_eq, hX]
  cases hc : c == '<'
  · rfl
  · rw [hgt hc]; rfl

theorem hasTag_rstrip : ∀ l : Str, hasTag l = false → hasTag (rstrip l) = false := by
  intro l
  induction l with
  | nil => intro _; rfl
  | cons c rest ih =>
    intro h
    have hrest := hasTag_cons_false h
    cases hr : rstrip rest with
    | nil =>
      rw [rstrip, hr]
      by_cases hsp : pyIsSpace c
      · rw [if_pos hsp]; rfl
      · rw [if_neg hsp]
        exact hasTag_cons_of c rfl (fun _ => rfl)
    | cons r rs =>
      rw [rstrip, hr]
      refine hasTag_cons_of c (hr ▸ ih hrest) (fun hc => ?_)
      have hgr : hasGt rest = false := by
        have : c = '<' := by simpa using hc
        exact hasGt_false_of_hasTag_lt (this ▸ h)
      exact hasGt_false_of_subset (fun x hx => mem_of_mem_rstrip rest x (hr ▸ hx)) hgr

theorem hasTag_lstrip : ∀ l : Str, hasTag l = false → hasTag (lstrip l) = false := by
  intro l
  induction l with
  | nil => intro _; rfl
  | cons c rest ih =>
    intro h
    by_cases hsp : pyIsSpace c
    · rw [lstrip, if_pos hsp]
      exact ih (hasTag_cons_false h)
    · rw [lstrip, if_neg hsp]
      exact h

theorem hasTag_pyStrip {s : Str} (h : hasTag s = false) :
    hasTag (pyStrip s) = false :=
  hasTag_rstrip _ (hasTag_lstrip _ h)

theorem lstrip_head_not_space : ∀ {l : Str} {c : Char} {rest : Str},
    lstrip l = c :: rest → pyIsSpace c = false := by
  intro l
  induction l with
  | nil => intro c rest h; cases h
  | cons a tail ih =>
    intro c rest h
    by_cases hsp : pyIsSpace a
    · rw [lstrip, if_pos hsp] at h
      exact ih h
    · rw [lstrip, if_neg hsp] at h
      injection h with h1 h2
      rw [← h1]
      simpa using hsp

theorem rstrip_head (c : Char) (rest : Str) :
    rstrip (c :: rest) = [] ∨ ∃ r, rstrip (c :: rest) = c :: r := by
  cases hr : rstrip rest with
  | nil =>
    rw [rstrip, hr]
    by_cases hsp : pyIsSpace c
    · exact Or.inl (by rw [if_pos hsp])
    · exact Or.inr ⟨[], by rw [if_neg hsp]⟩
  | cons r rs =>
    rw [rstrip, hr]
    exact Or.inr ⟨r :: rs, rfl⟩

theorem rstrip_idem : ∀ l : Str, rstrip (rstrip l) = rstrip l := by
  intro l
  induction l with
  | nil => rfl
  | cons c rest ih =>
    cases hr : rstrip rest with
    | nil =>
      rw [rstrip, hr]
      by_cases hsp : pyIsSpace c
      · rw [if_pos hsp]; rfl
      · rw [if_neg hsp]
        show rstrip [c] = [c]
        rw [rstrip]
        show (match rstrip [] with
          | [] => if pyIsSpace c then [] else [c]
          | r :: rs => c :: r :: rs) = [c]
        rw [show rstrip [] = [] from rfl, if_neg hsp]
    | cons r rs =>
      rw [rstrip, hr]
      have ih2 : rstrip (r :: rs) = r :: rs := by rw [← hr]; exact ih
      rw [rstrip, ih2]

theorem lstrip_of_head_not_space {c : Char} {rest : Str}
    (h : pyIsSpace c = false) : lstrip (c :: rest) = c :: rest := by
  rw [lstrip, if_neg (by simp [h])]

theorem pyStrip_idem (s : Str) : pyStrip (pyStrip s) = pyStrip s := by
  show rstrip (lstrip (rstrip (lstrip s))) = rstrip (lstrip s)
  cases hl : lstrip s with
  | nil => rfl
  | cons c rest =>
    have hc := lstrip_head_not_space hl
    rcases rstrip_head c rest with h0 | ⟨r, h0⟩
    · rw [h0]; rfl
    · rw [h0, lstrip_of_head_not_space hc, ← h0, rstrip_idem]

/-! ## The note markup converter (zotero.py lines 158-187, `simple_html_to_md`) -/

/-- One `str.replace` rewrite step. -/
def applyRule (s : Str) (r : Str × Str) : Str := replaceAll r.1 r.2 s

/-- The ordered literal rewrites of `simple_html_to_md`: headings 6 down to 1
(lines 164-165), bold/italic (168-171), lists (174-176), paragraphs and line
breaks (179-180). -/
def htmlRules : List (Str × Str) :=
  [ ("<h6>".toList, "###### ".toList), ("</h6>".toList, "\n\n".toList),
    ("<h5>".toList, "##### ".toList), ("</h5>".toList, "\n\n".toList),
    ("<h4>".toList, "#### ".toList), ("</h4>".toList, "\n\n".toList),
    ("<h3>".toList, "### ".toList), ("</h3>".toList, "\n\n".toList),
    ("<h2>".toList, "## ".toList), ("</h2>".toList, "\n\n".toList),
    ("<h1>".toList, "# ".toList), ("</h1>".toList, "\n\n".toList),
    ("<strong>".toList, "**".toList), ("</strong>".toList, "**".toList),
    ("<b>".toList, "**".toList), ("</b>".toList, "**".toList),
    ("<em>".toList, "*".toList), ("</em>".toList, "*".toList),
    ("<i>".toList, "*".toList), ("</i>".toList, "*".toList),
    ("<ul>".toList, "\n".toList), ("</ul>".toList, "\n".toList),
    ("<ol>".toList, "\n".toList), ("</ol>".toList, "\n".toList),
    ("<li>".toList, "- ".toList), ("</li>".toList, "\n".toList),
    ("<p>".toList, [] ), ("</p>".toList, "\n\n".toList),
    ("<br>".toList, "\n".toList), ("<br/>".toList, "\n".toList),
    ("<br />".toList, "\n".toList) ]

/-- `simple_html_to_md` (zotero.py lines 158-187): the ordered literal
rewrites, then the link regex, then unconditional tag stripping, then
`strip()`. -/
def simple_html_to_md (html : Str) : Str :=
  pyStrip (stripTags (linkSub (htmlRules.foldl applyRule html)))

theorem htmlRules_tagged : ∀ r ∈ htmlRules, hasTag r.1 = true := by decide

theorem foldl_applyRule_id : ∀ (rs : List (Str × Str)) (s : Str),
    (∀ r ∈ rs, hasTag r.1 = true) → hasTag s = false →
    rs.foldl applyRule s = s := by
  intro rs
  induction rs with
  | nil => intro s _ _; rfl
  | cons r rest ih =>
    intro s hr hs
    have h1 : applyRule s r = s :=
      replaceAll_id r.2 (hr r (List.mem_cons_self _ _)) hs
    rw [List.foldl_cons, h1]
    exact ih s (fun q hq => hr q (List.mem_cons_of_mem _ hq)) hs

theorem simple_html_to_md_eq_strip {s : Str} (hs : hasTag s = false) :
    simple_html_to_md s = pyStrip s := by
  unfold simple_html_to_md
  rw [foldl_applyRule_id htmlRules s htmlRules_tagged hs, linkSub_id hs, stripTags_id hs]

/-- Claim C8: on any input containing no HTML tag markup (no `<` later
followed by `>`), the note markup converter is idempotent: converting twice
equals converting once. -/
theorem simple_html_to_md_idempotent (s : Str) (h : hasTag s = false) :
    simple_html_to_md (simple_html_to_md s) = simple_html_to_md s := by
  rw [simple_html_to_md_eq_strip h,
      simple_html_to_md_eq_strip (hasTag_pyStrip h), pyStrip_idem]

/-- Witness for C8 at a concrete tag-free input. -/
theorem simple_html_to_md_idempotent_witness :
    hasTag ("  plain note text ".toList) = false ∧
    simple_html_to_md (simple_html_to_md ("  plain note text ".toList))
      = simple_html_to_md ("  plain note text ".toList) :=
  ⟨by decide, simple_html_to_md_idempotent ("  plain note text ".toList) (by decide)⟩

/-- Sanity check against the scenario in the specification: a note body
`<h1>Title</h1><p>Body</p>` converts to `# Title\n\nBody` (trimmed). -/
theorem simple_html_to_md_scenario :
    simple_html_to_md ("<h1>Title</h1><p>Body</p>".toList)
      = ("# Title\n\nBody".toList) := by decide

/-! ## Better BibTeX readiness probe and citation-key lookup
(zotero.py lines 20-95 and 193-243) -/

/-- The mutable probe state of `ZoteroWrapper`: `BBT` is set once by
`_check_better_bibtex_endpoint` during `__init__` (lines 23, 35) and never
re-checked; `bbtReadyCache` models `_bbt_ready_cache` (line 24). -/
structure BBTState where
  BBT : Bool
  bbtReadyCache : Option Bool
deriving DecidableEq

/-- Outcome of one `api.ready` JSON-RPC round trip, as discriminated by
`_check_bbt_library_ready` (lines 64-95). -/
inductive ReadyResp where
  /-- httpx.RequestError, httpx.TimeoutException or json.JSONDecodeError. -/
  | transportError
  /-- HTTP status other than 200. -/
  | httpError
  /-- 200 response without a `result` field. -/
  | noResultField
  /-- 200 response whose `result` is not a dict. -/
  | resultNotDict
  /-- 200 response whose `result` dict lacks `betterbibtex` or `zotero`. -/
  | missingMarkers
  /-- 200 response with both version markers present. -/
  | ready
deriving DecidableEq

/-- Result of one `_check_bbt_library_ready` call: the returned boolean, the
state afterwards, and how many network requests were issued. -/
structure ProbeOut where
  ready : Bool
  state : BBTState
  calls : Nat
deriving DecidableEq

/-- `_check_bbt_library_ready` (lines 52-95): returns False at once when the
endpoint flag is unset; returns True from cache without network when a
positive result was cached; otherwise issues the `api.ready` call, caching
only a positive outcome. -/
def check_bbt_library_ready (st : BBTState) (resp : ReadyResp) : ProbeOut :=
  if st.BBT = false then ⟨false, st, 0⟩
  else if st.bbtReadyCache = some true then ⟨true, st, 0⟩
  else
    match resp with
    | ReadyResp.ready => ⟨true, ⟨st.BBT, some true⟩, 1⟩
    | _ => ⟨false, st, 1⟩

/-- Run a sequence of `_check_bbt_library_ready` calls, threading the state
and summing the network requests. -/
def runProbes (st : BBTState) : List ReadyResp → (List Bool × BBTState × Nat)
  | [] => ([], st, 0)
  | r :: rs =>
    let o := check_bbt_library_ready st r
    let rest := runProbes o.state rs
    (o.ready :: rest.1, rest.2.1, o.calls + rest.2.2)

theorem check_ready_true_state {st : BBTState} {r : ReadyResp}
    (h : (check_bbt_library_ready st r).ready = true) :
    (check_bbt_library_ready st r).state.BBT = true ∧
    (check_bbt_library_ready st r).state.bbtReadyCache = some true := by
  unfold check_bbt_library_ready at h ⊢
  by_cases h1 : st.BBT = false
  · rw [if_pos h1] at h; cases h
  · rw [if_neg h1] at h ⊢
    by_cases h2 : st.bbtReadyCache = some true
    · rw [if_pos h2] at h ⊢
      exact ⟨by simpa using h1, h2⟩
    · rw [if_neg h2] at h ⊢
      cases r <;> simp_all

theorem check_ready_cached {st : BBTState} (h1 : st.BBT = true)
    (h2 : st.bbtReadyCache = some true) (r : ReadyResp) :
    check_bbt_library_ready st r = ⟨true, st, 0⟩ := by
  unfold check_bbt_library_ready
  rw [if_neg (by simp [h1]), if_pos h2]

/-- Claim C5: once a readiness probe has returned True, every later probe in
the same process returns True again with no network request and an unchanged
state; and a probe that returns False never changes the state (negative
results are not cached). -/
theorem bbt_ready_cached_for_process (st : BBTState) (r : ReadyResp) :
    ((check_bbt_library_ready st r).ready = true →
      ∀ rs : List ReadyResp,
        runProbes (check_bbt_library_ready st r).state rs
          = (List.replicate rs.length true, (check_bbt_library_ready st r).state, 0)) ∧
    ((check_bbt_library_ready st r).ready = false →
      (check_bbt_library_ready st r).state = st) := by
  constructor
  · intro h rs
    obtain ⟨hB, hC⟩ := check_ready_true_state h
    generalize hst : (check_bbt_library_ready st r).state = st1 at hB hC
    induction rs with
    | nil => rfl
    | cons q qs ih =>
      have hq := check_ready_cached hB hC q
      simp [runProbes, hq, ih, List.replicate_succ]
  · intro h
    unfold check_bbt_library_ready at h ⊢
    by_cases h1 : st.BBT = false
    · rw [if_pos h1] at h ⊢
    · rw [if_neg h1] at h ⊢
      by_cases h2 : st.bbtReadyCache = some true
      · rw [if_pos h2] at h; cases h
      · rw [if_neg h2] at h ⊢
        cases r <;> first | rfl | (simp at h)

/-- Witness for C5: after a successful probe from the uncached state, a
further probe with a failing transport still returns ready with no network
request. -/
theorem bbt_ready_cached_for_process_witness :
    runProbes (check_bbt_library_ready ⟨true, Option.none⟩ ReadyResp.ready).state
        [ReadyResp.transportError]
      = ([true], (check_bbt_library_ready ⟨true, Option.none⟩ ReadyResp.ready).state, 0) :=
  (bbt_ready_cached_for_process ⟨true, Option.none⟩ ReadyResp.ready).1 rfl
    [ReadyResp.transportError]

/-- Outcome of one `item.citationkey` JSON-RPC round trip, as discriminated
by `citation_keys` (lines 213-243). -/
inductive LookupResp where
  /-- httpx.RequestError, httpx.TimeoutException or json.JSONDecodeError. -/
  | transportError
  /-- HTTP status other than 200. -/
  | httpError
  /-- 200 response with a `result` mapping, returned verbatim. -/
  | resultField (m : List (Str × Str))
  /-- 200 response with an `error` field. -/
  | errorField
  /-- 200 response with neither `result` nor `error`. -/
  | neitherField

/-- Result of one `citation_keys` call: the returned mapping or the raised
exception message, the state afterwards, and the number of network requests
to the readiness endpoint and to the lookup endpoint respectively. -/
structure CKResult where
  res : Except Str (List (Str × Str))
  state : BBTState
  probeCalls : Nat
  lookupCalls : Nat

/-- The translation of the lookup response handling (lines 231-243). -/
def runLookup : LookupResp → Except Str (List (Str × Str))
  | LookupResp.resultField m => Except.ok m
  | LookupResp.errorField => Except.error ("Better BibTeX error").toList
  | LookupResp.neitherField => Except.error ("Invalid response from Better BibTeX").toList
  | LookupResp.httpError => Except.error ("HTTP error").toList
  | LookupResp.transportError => Except.error ("Failed to fetch citation keys").toList

/-- `citation_keys` (lines 193-243).  Note the order of the guards in the
source: the `BBT` flag check (line 204) and the readiness check (line 207)
both come before the empty-input early return (line 210). -/
def citation_keys (st : BBTState) (resp : ReadyResp) (lresp : LookupResp)
    (keys : List Str) : CKResult :=
  if st.BBT = false then
    ⟨Except.error ("Better BibTeX is not available").toList, st, 0, 0⟩
  else
    let o := check_bbt_library_ready st resp
    if o.ready = false then
      ⟨Except.error ("Better BibTeX library is not ready").toList, o.state, o.calls, 0⟩
    else if keys.isEmpty then
      ⟨Except.ok [], o.state, o.calls, 0⟩
    else
      ⟨runLookup lresp, o.state, o.calls, 1⟩

/-- Counterexample to Claim C3 as stated: with the endpoint flag unset (the
`unavailable` readiness state left by a failed initial endpoint probe), a
call with an empty key list fails instead of returning an empty mapping. -/
theorem citation_keys_empty_cex :
    (citation_keys ⟨false, Option.none⟩ ReadyResp.ready LookupResp.transportError []).res
      = Except.error ("Better BibTeX is not available").toList := rfl

/-- Claim C3, amended: with an empty key list the batched lookup request is
never issued; when the ready state is cached the call returns an empty map
with no network traffic at all; but when the endpoint flag is unset the call
fails (before looking at the key list), and when ready is not yet cached a
readiness probe is still made first. -/
theorem citation_keys_empty (st : BBTState) (r : ReadyResp) (l : LookupResp) :
    ((citation_keys st r l []).lookupCalls = 0) ∧
    (st.BBT = true → st.bbtReadyCache = some true →
      citation_keys st r l [] = ⟨Except.ok [], st, 0, 0⟩) ∧
    (st.BBT = false →
      citation_keys st r l []
        = ⟨Except.error ("Better BibTeX is not available").toList, st, 0, 0⟩) ∧
    (st.BBT = true → st.bbtReadyCache ≠ some true →
      (citation_keys st r l []).probeCalls = 1) := by
  refine ⟨?_, ?_, ?_, ?_⟩
  · unfold citation_keys
    by_cases h1 : st.BBT = false
    · rw [if_pos h1]
    · rw [if_neg h1]
      by_cases h2 : (check_bbt_library_ready st r).ready = false
      · simp [h2]
      · simp [h2]
  · intro h1 h2
    have hc := check_ready_cached h1 h2 r
    unfold citation_keys
    rw [if_neg (by simp [h1]), hc]
    rfl
  · intro h1
    unfold citation_keys
    rw [if_pos h1]
  · intro h1 h2
    have hcalls : (check_bbt_library_ready st r).calls = 1 := by
      unfold check_bbt_library_ready
      rw [if_neg (by simp [h1]), if_neg h2]
      cases r <;> rfl
    unfold citation_keys
    rw [if_neg (by simp [h1])]
    by_cases h3 : (check_bbt_library_ready st r).ready = false
    · simp [h3, hcalls]
    · simp [h3, hcalls]

/-- Witness for C3 (amended): in the cached-ready state an empty key list
yields an empty mapping with no network requests. -/
theorem citation_keys_empty_witness :
    citation_keys ⟨true, some true⟩ ReadyResp.transportError LookupResp.transportError []
      = ⟨Except.ok [], ⟨true, some true⟩, 0, 0⟩ :=
  (citation_keys_empty ⟨true, some true⟩ ReadyResp.transportError
    LookupResp.transportError).2.1 rfl rfl

/-- Counterexample to Claim C4 as stated: in the `unavailable` state left by
a failed initial endpoint probe (`BBT = false`), a later enrichment attempt
issues no probe at all and fails, even though the companion service is now
fully ready — the recovery is never detected. -/
theorem citation_keys_no_reprobe_cex :
    citation_keys ⟨false, Option.none⟩ ReadyResp.ready
        (LookupResp.resultField [(("A").toList, ("a2024").toList)]) [("A").toList]
      = ⟨Except.error ("Better BibTeX is not available").toList, ⟨false, Option.none⟩, 0, 0⟩ := rfl

/-- Claim C4, amended: when the endpoint flag is set but ready is not yet
cached, every enrichment attempt re-probes readiness (exactly one probe
request), and a probe answering ready is detected and cached; when the
initial endpoint check failed, the flag is never re-checked — the attempt
makes no probe, fails, and leaves the state unchanged. -/
theorem citation_keys_reprobe (st : BBTState) (r : ReadyResp) (l : LookupResp)
    (keys : List Str) :
    (st.BBT = true → st.bbtReadyCache ≠ some true →
      (citation_keys st r l keys).probeCalls = 1 ∧
      (r = ReadyResp.ready →
        (citation_keys st r l keys).state.bbtReadyCache = some true)) ∧
    (st.BBT = false →
      (citation_keys st r l keys).probeCalls = 0 ∧
      (citation_keys st r l keys).state = st ∧
      (citation_keys st r l keys).res
        = Except.error ("Better BibTeX is not available").toList) := by
  constructor
  · intro h1 h2
    have hcalls : (check_bbt_library_ready st r).calls = 1 := by
      unfold check_bbt_library_ready
      rw [if_neg (by simp [h1]), if_neg h2]
      cases r <;> rfl
    have hstate : r = ReadyResp.ready →
        (check_bbt_library_ready st r).state.bbtReadyCache = some true := by
      intro hr
      subst hr
      unfold check_bbt_library_ready
      rw [if_neg (by simp [h1]), if_neg h2]
    constructor
    · unfold citation_keys
      rw [if_neg (by simp [h1])]
      by_cases h3 : (check_bbt_library_ready st r).ready = false
      · simp [h3, hcalls]
      · by_cases h4 : keys.isEmpty <;> simp [h3, h4, hcalls]
    · intro hr
      unfold citation_keys
      rw [if_neg (by simp [h1])]
      by_cases h3 : (check_bbt_library_ready st r).ready = false
      · simpa [h3] using hstate hr
      · by_cases h4 : keys.isEmpty <;>
          · simp only [h3, h4]
            simpa [h3, h4] using hstate hr
  · intro h1
    unfold citation_keys
    rw [if_pos h1]
    exact ⟨rfl, rfl, rfl⟩

/-- Witness for C4 (amended): from the endpoint-detected, not-yet-ready
state, an enrichment attempt makes exactly one probe request and a ready
answer is cached. -/
theorem citation_keys_reprobe_witness :
    (citation_keys ⟨true, Option.none⟩ ReadyResp.ready LookupResp.transportError
        [("K1").toList]).probeCalls = 1 ∧
    (citation_keys ⟨true, Option.none⟩ ReadyResp.ready LookupResp.transportError
        [("K1").toList]).state.bbtReadyCache = some true := by
  have h := (citation_keys_reprobe ⟨true, Option.none⟩ ReadyResp.ready
    LookupResp.transportError [("K1").toList]).1 rfl (by decide)
  exact ⟨h.1, h.2 rfl⟩

/-! ## Python values and dicts -/

/-- A JSON-like Python value as handled by the formatter.  String payloads
are `Str` (lists of characters); dict keys are Lean `String`s. -/
inductive PyVal where
  | none
  | str (s : Str)
  | int (n : Int)
  | bool (b : Bool)
  | list (xs : List PyVal)
  | dict (d : List (String × PyVal))

/-- A Python dict, modelled as an association list with unique keys. -/
abbrev Dict := List (String × PyVal)

/-- Python `d[k]` / `k in d`: first-match association lookup. -/
def dlookup : Dict → String → Option PyVal
  | [], _ => Option.none
  | (k0, v) :: rest, k => if k0 = k then some v else dlookup rest k

/-- Python `d[k] = v`: replace in place when the key exists, else append. -/
def dset : Dict → String → PyVal → Dict
  | [], k, v => [(k, v)]
  | (k0, w) :: rest, k, v =>
    if k0 = k then (k0, v) :: rest else (k0, w) :: dset rest k v

/-- Python `d.get(k, dflt)`. -/
def dgetD (d : Dict) (k : String) (dflt : PyVal) : PyVal :=
  (dlookup d k).getD dflt

/-- Python `d[k]` where the caller has already checked `k in d` (totalised
with `None` for an absent key, a case the source never reaches). -/
def ditem (d : Dict) (k : String) : PyVal :=
  (dlookup d k).getD PyVal.none

/-- Python `d.update(upd)`. -/
def dupdate (d upd : Dict) : Dict :=
  upd.foldl (fun acc p => dset acc p.1 p.2) d

/-- Conditional insertion `if cond: d[k] = v`, the shape of the optional
passthrough blocks of `format_item` (lines 120-132). -/
def addIf (c : Bool) (dst : String) (v : PyVal) (d : Dict) : Dict :=
  if c then dset d dst v else d

/-- View a value as a dict (the source only applies dict operations to
values that are dicts; other shapes would crash Python and are totalised
to the empty dict). -/
def asDict : PyVal → Dict
  | PyVal.dict d => d
  | _ => []

/-- View a value as a list (same totalisation remark as `asDict`). -/
def asList : PyVal → List PyVal
  | PyVal.list xs => xs
  | _ => []

/-- View a value as a string (same totalisation remark as `asDict`). -/
def asStr : PyVal → Str
  | PyVal.str s => s
  | _ => []

/-- Python truthiness of the values that occur in the formatter. -/
def pyTruthy : PyVal → Bool
  | PyVal.none => false
  | PyVal.str s => !s.isEmpty
  | PyVal.int n => !(n == 0)
  | PyVal.bool b => b
  | PyVal.list xs => !xs.isEmpty
  | PyVal.dict d => !d.isEmpty

/-- `isNone v` holds exactly for the Python `None` value. -/
def isNone : PyVal → Bool
  | PyVal.none => true
  | _ => false

/-! ### Dict lemmas -/

theorem dlookup_dset_self : ∀ (d : Dict) (k : String) (v : PyVal),
    dlookup (dset d k v) k = some v := by
  intro d k v
  induction d with
  | nil => simp [dset, dlookup]
  | cons p rest ih =>
    obtain ⟨k0, w⟩ := p
    by_cases h : k0 = k
    · simp [dset, dlookup, h]
    · simp [dset, dlookup, h, ih]

theorem dlookup_dset_neq : ∀ (d : Dict) (k : String) (v : PyVal) (q : String),
    q ≠ k → dlookup (dset d k v) q = dlookup d q := by
  intro d k v q hq
  have hk : ¬(k = q) := fun h => hq h.symm
  induction d with
  | nil => simp [dset, dlookup, hk]
  | cons p rest ih =>
    obtain ⟨k0, w⟩ := p
    by_cases h : k0 = k
    · subst h
      simp [dset, dlookup, hk]
    · rw [dset, if_neg h, dlookup, dlookup]
      by_cases h2 : k0 = q
      · rw [if_pos h2, if_pos h2]
      · rw [if_neg h2, if_neg h2, ih]

theorem mem_of_dlookup : ∀ {d : Dict} {k : String} {v : PyVal},
    dlookup d k = some v → (k, v) ∈ d := by
  intro d
  induction d with
  | nil => intro k v h; cases h
  | cons p rest ih =>
    intro k v h
    obtain ⟨k0, w⟩ := p
    by_cases h0 : k0 = k
    · subst h0
      rw [dlookup, if_pos rfl] at h
      injection h with h1
      simp [h1]
    · rw [dlookup, if_neg h0] at h
      exact List.mem_cons_of_mem _ (ih h)

theorem mem_dset : ∀ {d : Dict} {k : String} {v : PyVal} {p : String × PyVal},
    p ∈ dset d k v → p = (k, v) ∨ p ∈ d := by
  intro d
  induction d with
  | nil =>
    intro k v p h
    simp [dset] at h
    exact Or.inl h
  | cons q rest ih =>
    intro k v p h
    obtain ⟨k0, w⟩ := q
    by_cases h0 : k0 = k
    · subst h0
      rw [dset, if_pos rfl] at h
      rcases List.mem_cons.mp h with h1 | h1
      · exact Or.inl (by simpa using h1)
      · exact Or.inr (List.mem_cons_of_mem _ h1)
    · rw [dset, if_neg h0] at h
      rcases List.mem_cons.mp h with h1 | h1
      · exact Or.inr (by simp [h1])
      · rcases ih h1 with h2 | h2
        · exact Or.inl h2
        · exact Or.inr (List.mem_cons_of_mem _ h2)

theorem dlookup_addIf_neq {c : Bool} {dst : String} {v : PyVal} {d : Dict}
    {q : String} (h : q ≠ dst) : dlookup (addIf c dst v d) q = dlookup d q := by
  unfold addIf
  cases c
  · rfl
  · simpa using dlookup_dset_neq d dst v q h

theorem dlookup_addIf_self {c : Bool} {dst : String} {v : PyVal} {d : Dict} :
    dlookup (addIf c dst v d) dst = if c then some v else dlookup d dst := by
  unfold addIf
  cases c
  · rfl
  · simpa using dlookup_dset_self d dst v

/-! ## The record formatter (zotero.py lines 97-191) -/

/-- `item.get("data", {})` (line 100). -/
def dataOf (item : Dict) : Dict := asDict (dgetD item ("data") (PyVal.dict []))

/-- `data.get("meta", {})` used for the attachment count (line 129). -/
def metaOf (item : Dict) : Dict :=
  asDict (dgetD (dataOf item) ("meta") (PyVal.dict []))

/-- The comparison `itemType == "note"` (line 111). -/
def isNoteType : PyVal → Bool
  | PyVal.str s => s == ("note").toList
  | _ => false

/-- `format_creators` (lines 136-147): join the truthy name parts of each
creator with spaces, join the creators with `", "`, and fall back to the
sentinel when the result is empty. -/
def format_creators (creators : List PyVal) : Str :=
  let names := creators.filterMap (fun c =>
    let cd := asDict c
    let f := dgetD cd ("firstName") PyVal.none
    let l := dgetD cd ("lastName") PyVal.none
    let parts := (if pyTruthy f then [asStr f] else [])
      ++ (if pyTruthy l then [asStr l] else [])
    if parts.isEmpty then Option.none
    else some (List.intercalate (" ").toList parts))
  let joined := List.intercalate (", ").toList names
  if joined.isEmpty then ("No authors listed").toList else joined

/-- The tag flattening of line 127: keep the truthy `tag` entries of the
tag objects (a tag object lacking a name, or with an empty name, is
dropped). -/
def flattenTags (ts : List PyVal) : List PyVal :=
  ts.filterMap (fun t =>
    let v := dgetD (asDict t) ("tag") PyVal.none
    if pyTruthy v then some v else Option.none)

/-- `format_note` (lines 149-191): parent, last-modified timestamp and the
converted note body. -/
def format_note (item : Dict) : Dict :=
  [ ("parent", dgetD (dataOf item) ("parentItem") (PyVal.str [])),
    ("last_modified", dgetD (dataOf item) ("dateModified") (PyVal.str [])),
    ("note", PyVal.str (simple_html_to_md (asStr (dgetD (dataOf item) ("note") (PyVal.str []))))) ]

/-- The dict literal of lines 104-109 (`title`, `key`, `itemType`, `date`).
Note that `key` uses `data.get("key")`, whose default is `None`. -/
def baseDict (data : Dict) : Dict :=
  [ ("title", dgetD data ("title") (PyVal.str ("Untitled").toList)),
    ("key", dgetD data ("key") PyVal.none),
    ("itemType", dgetD data ("itemType") (PyVal.str ("Unknown type").toList)),
    ("date", dgetD data ("date") (PyVal.str ("No date").toList)) ]

/-- The branch on `itemType == "note"` (lines 111-118): a note merges the
`format_note` fields; anything else gets `authors` and, when requested,
`abstractNote`. -/
def branchDict (item : Dict) (include_abstract : Bool) : Dict :=
  let data := dataOf item
  if isNoteType (dgetD data ("itemType") (PyVal.str ("Unknown type").toList)) then
    dupdate (baseDict data) (format_note item)
  else
    let fa := dset (baseDict data) ("authors")
      (PyVal.str (format_creators (asList (dgetD data ("creators") (PyVal.list [])))))
    if include_abstract then
      dset fa ("abstractNote")
        (dgetD data ("abstractNote") (PyVal.str ("No abstract available").toList))
    else fa

/-- `format_item` (lines 97-134).  After the branch, the optional
passthrough fields are copied when present (lines 120-129; note the
misspelling `numAttachements` and the `children` trigger on line 128-129),
and a previously attached `BBT_key` is merged as `bibtexKey`
(lines 131-132). -/
def format_item (item : Dict) (include_abstract : Bool) : Dict :=
  let data := dataOf item
  addIf (dlookup item ("BBT_key")).isSome ("bibtexKey") (ditem item ("BBT_key"))
   (addIf (dlookup data ("children")).isSome ("numAttachements")
      (dgetD (metaOf item) ("numChildren") (PyVal.int 0))
    (addIf (dlookup data ("tags")).isSome ("tags")
       (PyVal.list (flattenTags (asList (dgetD data ("tags") (PyVal.list [])))))
     (addIf (dlookup data ("publicationTitle")).isSome ("publicationTitle")
        (ditem data ("publicationTitle"))
      (addIf (dlookup data ("url")).isSome ("url") (ditem data ("url"))
       (addIf (dlookup data ("DOI")).isSome ("doi") (ditem data ("DOI"))
        (branchDict item include_abstract))))))

/-! ### Lookup lemmas for the formatter -/

theorem dlookup_dupdate_notin : ∀ (upd d : Dict) (q : String),
    (∀ p ∈ upd, p.1 ≠ q) → dlookup (dupdate d upd) q = dlookup d q := by
  intro upd
  induction upd with
  | nil => intro d q _; rfl
  | cons p rest ih =>
    intro d q h
    show dlookup (dupdate (dset d p.1 p.2) rest) q = dlookup d q
    rw [ih _ q (fun r hr => h r (List.mem_cons_of_mem _ hr)),
        dlookup_dset_neq _ _ _ _ ?_]
    intro hq
    exact h p (List.mem_cons_self _ _) hq.symm

theorem dupdate_three (d : Dict) (a b c : String) (x y z : PyVal) :
    dupdate d [(a, x), (b, y), (c, z)] = dset (dset (dset d a x) b y) c z := rfl

theorem dlookup_baseDict_neq (data : Dict) (q : String)
    (h1 : q ≠ ("title")) (h2 : q ≠ ("key")) (h3 : q ≠ ("itemType"))
    (h4 : q ≠ ("date")) : dlookup (baseDict data) q = Option.none := by
  unfold baseDict
  rw [dlookup, if_neg (fun hh => h1 hh.symm), dlookup, if_neg (fun hh => h2 hh.symm),
      dlookup, if_neg (fun hh => h3 hh.symm), dlookup, if_neg (fun hh => h4 hh.symm)]
  rfl

theorem dlookup_baseDict_key (data : Dict) :
    dlookup (baseDict data) ("key") = some (dgetD data ("key") PyVal.none) := by
  unfold baseDict
  rw [dlookup, if_neg (by decide), dlookup, if_pos rfl]

theorem format_note_keys (item : Dict) :
    ∀ p ∈ format_note item,
      p.1 = ("parent") ∨ p.1 = ("last_modified") ∨ p.1 = ("note") := by
  intro p hp
  simp only [format_note, List.mem_cons, List.not_mem_nil, or_false] at hp
  rcases hp with h | h | h <;> simp [h]

theorem dlookup_branchDict_neq (item : Dict) (b : Bool) (q : String)
    (h1 : q ≠ ("title")) (h2 : q ≠ ("key")) (h3 : q ≠ ("itemType"))
    (h4 : q ≠ ("date")) (h5 : q ≠ ("authors")) (h6 : q ≠ ("abstractNote"))
    (h7 : q ≠ ("parent")) (h8 : q ≠ ("last_modified")) (h9 : q ≠ ("note")) :
    dlookup (branchDict item b) q = Option.none := by
  simp only [branchDict]
  by_cases hn : isNoteType
      (dgetD (dataOf item) ("itemType") (PyVal.str ("Unknown type").toList)) = true
  · rw [if_pos hn, dlookup_dupdate_notin _ _ q ?_, dlookup_baseDict_neq _ _ h1 h2 h3 h4]
    intro p hp
    rcases format_note_keys item p hp with h | h | h <;>
      · rw [h]; intro hh; first
          | exact h7 hh.symm | exact h8 hh.symm | exact h9 hh.symm
  · rw [if_neg hn]
    split
    · rw [dlookup_dset_neq _ _ _ _ h6, dlookup_dset_neq _ _ _ _ h5,
          dlookup_baseDict_neq _ _ h1 h2 h3 h4]
    · rw [dlookup_dset_neq _ _ _ _ h5, dlookup_baseDict_neq _ _ h1 h2 h3 h4]

theorem dlookup_branchDict_key (item : Dict) (b : Bool) :
    dlookup (branchDict item b) ("key")
      = some (dgetD (dataOf item) ("key") PyVal.none) := by
  simp only [branchDict]
  by_cases hn : isNoteType
      (dgetD (dataOf item) ("itemType") (PyVal.str ("Unknown type").toList)) = true
  · rw [if_pos hn, dlookup_dupdate_notin _ _ _ ?_, dlookup_baseDict_key]
    intro p hp
    rcases format_note_keys item p hp with h | h | h <;> simp [h]
  · rw [if_neg hn]
    split
    · rw [dlookup_dset_neq _ _ _ _ (by decide), dlookup_dset_neq _ _ _ _ (by decide),
          dlookup_baseDict_key]
    · rw [dlookup_dset_neq _ _ _ _ (by decide), dlookup_baseDict_key]

/-- Lookups that none of the six optional-passthrough inserts can affect
fall through to the branch dict. -/
theorem dlookup_format_item_passthrough (item : Dict) (b : Bool) (q : String)
    (h1 : q ≠ ("doi")) (h2 : q ≠ ("url")) (h3 : q ≠ ("publicationTitle"))
    (h4 : q ≠ ("tags")) (h5 : q ≠ ("numAttachements")) (h6 : q ≠ ("bibtexKey")) :
    dlookup (format_item item b) q = dlookup (branchDict item b) q := by
  simp only [format_item]
  rw [dlookup_addIf_neq h6, dlookup_addIf_neq h5, dlookup_addIf_neq h4,
      dlookup_addIf_neq h3, dlookup_addIf_neq h2, dlookup_addIf_neq h1]

/-! ## Claim C1: how a resolved citation key is merged -/

/-- A record whose key has a separately resolved citation key, attached as
`BBT_key` by `get_items_metadata` (lines 482-486). -/
def itemC1 : Dict :=
  [ ("data", PyVal.dict [("title", PyVal.str ("X").toList)]),
    ("BBT_key", PyVal.str ("smith2020").toList) ]

/-- Counterexample to Claim C1 as stated: the resolved citation key is never
merged under `citationKey`; it appears under `bibtexKey` (line 132). -/
theorem format_item_citationKey_cex :
    dlookup (format_item itemC1 true) ("citationKey") = Option.none ∧
    dlookup (format_item itemC1 true) ("bibtexKey")
      = some (PyVal.str ("smith2020").toList) := ⟨rfl, rfl⟩

/-- Claim C1, amended: for every record carrying a separately resolved
citation key (`BBT_key`), `format_item` merges it into the output under the
field name `bibtexKey`. -/
theorem format_item_bibtexKey (item : Dict) (b : Bool) (v : PyVal)
    (h : dlookup item ("BBT_key") = some v) :
    dlookup (format_item item b) ("bibtexKey") = some v := by
  simp only [format_item]
  have hc : (dlookup item ("BBT_key")).isSome = true := by rw [h]; rfl
  rw [hc]
  show dlookup (dset _ ("bibtexKey") (ditem item ("BBT_key"))) ("bibtexKey") = some v
  rw [dlookup_dset_self]
  simp [ditem, h]

/-- Witness for C1 (amended) at a concrete record. -/
theorem format_item_bibtexKey_witness :
    dlookup itemC1 ("BBT_key") = some (PyVal.str ("smith2020").toList) ∧
    dlookup (format_item itemC1 false) ("bibtexKey")
      = some (PyVal.str ("smith2020").toList) :=
  ⟨rfl, format_item_bibtexKey itemC1 false (PyVal.str ("smith2020").toList) rfl⟩

/-! ## Claim C6: note records -/

/-- A note record that also carries creators and an abstract. -/
def itemC6 : Dict :=
  [("data", PyVal.dict
    [ ("itemType", PyVal.str ("note").toList),
      ("note", PyVal.str ("<p>Hi</p>").toList),
      ("creators", PyVal.list
        [PyVal.dict [("firstName", PyVal.str ("A").toList),
                     ("lastName", PyVal.str ("B").toList)]]),
      ("abstractNote", PyVal.str ("abs").toList),
      ("dateModified", PyVal.str ("2024-01-01").toList),
      ("parentItem", PyVal.str ("P1").toList) ])]

/-- Counterexample to Claim C6 as stated: the note timestamp is emitted
under the key `last_modified` (line 154), not `lastModified`. -/
theorem format_item_lastModified_cex :
    dlookup (format_item itemC6 true) ("lastModified") = Option.none ∧
    dlookup (format_item itemC6 true) ("last_modified")
      = some (PyVal.str ("2024-01-01").toList) := ⟨rfl, rfl⟩

/-- Claim C6, amended: for every record whose itemType is `note`,
`format_item` emits `parent`, `last_modified` (snake case, not
`lastModified`) and `note` (the body run through the markup converter), and
never emits `authors` or `abstractNote`, regardless of the raw payload and
of the abstract flag. -/
theorem format_item_note_fields (item : Dict) (b : Bool)
    (h : isNoteType
      (dgetD (dataOf item) ("itemType") (PyVal.str ("Unknown type").toList)) = true) :
    dlookup (format_item item b) ("parent")
      = some (dgetD (dataOf item) ("parentItem") (PyVal.str [])) ∧
    dlookup (format_item item b) ("last_modified")
      = some (dgetD (dataOf item) ("dateModified") (PyVal.str [])) ∧
    dlookup (format_item item b) ("note")
      = some (PyVal.str (simple_html_to_md
          (asStr (dgetD (dataOf item) ("note") (PyVal.str []))))) ∧
    dlookup (format_item item b) ("authors") = Option.none ∧
    dlookup (format_item item b) ("abstractNote") = Option.none := by
  have hbr : branchDict item b = dupdate (baseDict (dataOf item)) (format_note item) := by
    simp only [branchDict]
    rw [if_pos h]
  refine ⟨?_, ?_, ?_, ?_, ?_⟩
  · rw [dlookup_format_item_passthrough item b _ (by decide) (by decide) (by decide)
      (by decide) (by decide) (by decide), hbr, format_note, dupdate_three,
      dlookup_dset_neq _ _ _ _ (by decide), dlookup_dset_neq _ _ _ _ (by decide),
      dlookup_dset_self]
  · rw [dlookup_format_item_passthrough item b _ (by decide) (by decide) (by decide)
      (by decide) (by decide) (by decide), hbr, format_note, dupdate_three,
      dlookup_dset_neq _ _ _ _ (by decide), dlookup_dset_self]
  · rw [dlookup_format_item_passthrough item b _ (by decide) (by decide) (by decide)
      (by decide) (by decide) (by decide), hbr, format_note, dupdate_three,
      dlookup_dset_self]
  · rw [dlookup_format_item_passthrough item b _ (by decide) (by decide) (by decide)
      (by decide) (by decide) (by decide), hbr, format_note, dupdate_three,
      dlookup_dset_neq _ _ _ _ (by decide), dlookup_dset_neq _ _ _ _ (by decide),
      dlookup_dset_neq _ _ _ _ (by decide),
      dlookup_baseDict_neq _ _ (by decide) (by decide) (by decide) (by decide)]
  · rw [dlookup_format_item_passthrough item b _ (by decide) (by decide) (by decide)
      (by decide) (by decide) (by decide), hbr, format_note, dupdate_three,
      dlookup_dset_neq _ _ _ _ (by decide), dlookup_dset_neq _ _ _ _ (by decide),
      dlookup_dset_neq _ _ _ _ (by decide),
      dlookup_baseDict_neq _ _ (by decide) (by decide) (by decide) (by decide)]

/-- Witness for C6 (amended) at a note that carries both creators and an
abstract, with the abstract flag on. -/
theorem format_item_note_fields_witness :
    isNoteType
      (dgetD (dataOf itemC6) ("itemType") (PyVal.str ("Unknown type").toList)) = true ∧
    dlookup (format_item itemC6 true) ("authors") = Option.none ∧
    dlookup (format_item itemC6 true) ("abstractNote") = Option.none := by
  have h := format_item_note_fields itemC6 true (by decide)
  exact ⟨by decide, h.2.2.2.1, h.2.2.2.2⟩

/-! ## Claim C7: optional passthrough fields -/

theorem addIf_lookup_eq {c : Bool} {dst : String} {v : PyVal} {d : Dict}
    (hnone : dlookup d dst = Option.none) :
    dlookup (addIf c dst v d) dst = if c then some v else Option.none := by
  rw [dlookup_addIf_self]
  cases c
  · simpa using hnone
  · rfl

theorem isSome_getD_eq (o : Option PyVal) :
    (if o.isSome then some (o.getD PyVal.none) else Option.none) = o := by
  cases o <;> rfl

/-- A record carrying a source field literally named `numAttachments`, and a
record carrying a `children` entry. -/
def itemC7 : Dict := [("data", PyVal.dict [("numAttachments", PyVal.int 5)])]

def itemC7b : Dict := [("data", PyVal.dict [("children", PyVal.list [])])]

/-- Counterexample to Claim C7 as stated: a source field `numAttachments` is
not passed through at all, while a `children` entry produces the misspelled
output key `numAttachements` (value from `data.meta.numChildren`, default
0); the claimed key `numAttachments` never appears. -/
theorem format_item_numAttachments_cex :
    dlookup (dataOf itemC7) ("numAttachments") = some (PyVal.int 5) ∧
    dlookup (format_item itemC7 true) ("numAttachments") = Option.none ∧
    dlookup (format_item itemC7b true) ("numAttachements") = some (PyVal.int 0) ∧
    dlookup (format_item itemC7b true) ("numAttachments") = Option.none :=
  ⟨rfl, rfl, rfl, rfl⟩

/-- Claim C7, amended: `doi`, `url`, `publicationTitle` and `tags` are
emitted exactly when `DOI`, `url`, `publicationTitle`, `tags` are present on
the source data, with `tags` flattened to the list of truthy tag names
(tag objects lacking a name, or with an empty name, are dropped); the
attachment count is emitted under the misspelled key `numAttachements`
exactly when the source data has a `children` entry, with value
`data.meta.numChildren` (default 0); no key `numAttachments` is ever
emitted. -/
theorem format_item_passthrough_fields (item : Dict) (b : Bool) :
    dlookup (format_item item b) ("doi") = dlookup (dataOf item) ("DOI") ∧
    dlookup (format_item item b) ("url") = dlookup (dataOf item) ("url") ∧
    dlookup (format_item item b) ("publicationTitle")
      = dlookup (dataOf item) ("publicationTitle") ∧
    dlookup (format_item item b) ("tags")
      = (if (dlookup (dataOf item) ("tags")).isSome then
          some (PyVal.list (flattenTags (asList (dgetD (dataOf item) ("tags") (PyVal.list [])))))
         else Option.none) ∧
    dlookup (format_item item b) ("numAttachements")
      = (if (dlookup (dataOf item) ("children")).isSome then
          some (dgetD (metaOf item) ("numChildren") (PyVal.int 0))
         else Option.none) ∧
    dlookup (format_item item b) ("numAttachments") = Option.none := by
  have hbr : ∀ q : String, q ≠ ("title") → q ≠ ("key") → q ≠ ("itemType") →
      q ≠ ("date") → q ≠ ("authors") → q ≠ ("abstractNote") → q ≠ ("parent") →
      q ≠ ("last_modified") → q ≠ ("note") →
      dlookup (branchDict item b) q = Option.none := fun q a1 a2 a3 a4 a5 a6 a7 a8 a9 =>
    dlookup_branchDict_neq item b q a1 a2 a3 a4 a5 a6 a7 a8 a9
  refine ⟨?_, ?_, ?_, ?_, ?_, ?_⟩
  · simp only [format_item]
    rw [dlookup_addIf_neq (by decide), dlookup_addIf_neq (by decide),
        dlookup_addIf_neq (by decide), dlookup_addIf_neq (by decide),
        dlookup_addIf_neq (by decide),
        addIf_lookup_eq (hbr _ (by decide) (by decide) (by decide) (by decide)
          (by decide) (by decide) (by decide) (by decide) (by decide))]
    exact isSome_getD_eq _
  · simp only [format_item]
    rw [dlookup_addIf_neq (by decide), dlookup_addIf_neq (by decide),
        dlookup_addIf_neq (by decide), dlookup_addIf_neq (by decide),
        addIf_lookup_eq (by
          rw [dlookup_addIf_neq (by decide)]
          exact hbr _ (by decide) (by decide) (by decide) (by decide)
            (by decide) (by decide) (by decide) (by decide) (by decide))]
    exact isSome_getD_eq _
  · simp only [format_item]
    rw [dlookup_addIf_neq (by decide), dlookup_addIf_neq (by decide),
        dlookup_addIf_neq (by decide),
        addIf_lookup_eq (by
          rw [dlookup_addIf_neq (by decide), dlookup_addIf_neq (by decide)]
          exact hbr _ (by decide) (by decide) (by decide) (by decide)
            (by decide) (by decide) (by decide) (by decide) (by decide))]
    exact isSome_getD_eq _
  · simp only [format_item]
    rw [dlookup_addIf_neq (by decide), dlookup_addIf_neq (by decide),
        addIf_lookup_eq (by
          rw [dlookup_addIf_neq (by decide), dlookup_addIf_neq (by decide),
              dlookup_addIf_neq (by decide)]
          exact hbr _ (by decide) (by decide) (by decide) (by decide)
            (by decide) (by decide) (by decide) (by decide) (by decide))]
  · simp only [format_item]
    rw [dlookup_addIf_neq (by decide),
        addIf_lookup_eq (by
          rw [dlookup_addIf_neq (by decide), dlookup_addIf_neq (by decide),
              dlookup_addIf_neq (by decide), dlookup_addIf_neq (by decide)]
          exact hbr _ (by decide) (by decide) (by decide) (by decide)
            (by decide) (by decide) (by decide) (by decide) (by decide))]
  · rw [dlookup_format_item_passthrough item b _ (by decide) (by decide) (by decide)
      (by decide) (by decide) (by decide)]
    exact hbr _ (by decide) (by decide) (by decide) (by decide)
      (by decide) (by decide) (by decide) (by decide) (by decide)

/-! ## Claim C2: null values in the formatted output -/

/-- Every entry of the dict is either the `key` field or a non-null value. -/
def okDict (d : Dict) : Prop :=
  ∀ p, p ∈ d → p.1 = ("key" : String) ∨ isNone p.2 = false

/-- All values of the dict are non-null (the well-formedness of a raw
record whose present fields are themselves non-null). -/
def cleanD (d : Dict) : Bool := d.all (fun p => !(isNone p.2))

theorem okDict_dset {d : Dict} {k : String} {v : PyVal} (hd : okDict d)
    (hv : k = ("key" : String) ∨ isNone v = false) : okDict (dset d k v) := by
  intro p hp
  rcases mem_dset hp with h1 | h1
  · rw [h1]
    exact hv
  · exact hd p h1

theorem okDict_addIf {c : Bool} {dst : String} {v : PyVal} {d : Dict}
    (hd : okDict d) (hv : c = true → (dst = ("key" : String) ∨ isNone v = false)) :
    okDict (addIf c dst v d) := by
  unfold addIf
  cases c
  · simpa using hd
  · simpa using okDict_dset hd (hv rfl)

theorem dgetD_not_none {d : Dict} {k : String} {dflt : PyVal}
    (hd : cleanD d = true) (hdf : isNone dflt = false) :
    isNone (dgetD d k dflt) = false := by
  unfold dgetD
  cases hl : dlookup d k with
  | none => simpa using hdf
  | some v =>
    have hm := mem_of_dlookup hl
    have := List.all_eq_true.mp hd _ hm
    simpa using this

theorem dlookup_clean_not_none {d : Dict} {k : String} {v : PyVal}
    (hd : cleanD d = true) (hl : dlookup d k = some v) : isNone v = false := by
  have hm := mem_of_dlookup hl
  have := List.all_eq_true.mp hd _ hm
  simpa using this

theorem okDict_baseDict {data : Dict} (hd : cleanD data = true) :
    okDict (baseDict data) := by
  intro p hp
  simp only [baseDict, List.mem_cons, List.not_mem_nil, or_false] at hp
  rcases hp with h | h | h | h
  · rw [h]
    exact Or.inr (dgetD_not_none hd rfl)
  · rw [h]
    exact Or.inl rfl
  · rw [h]
    exact Or.inr (dgetD_not_none hd rfl)
  · rw [h]
    exact Or.inr (dgetD_not_none hd rfl)

theorem okDict_branchDict {item : Dict} {b : Bool}
    (hd : cleanD (dataOf item) = true) : okDict (branchDict item b) := by
  simp only [branchDict]
  by_cases hn : isNoteType
      (dgetD (dataOf item) ("itemType") (PyVal.str ("Unknown type").toList)) = true
  · rw [if_pos hn, format_note, dupdate_three]
    exact okDict_dset
      (okDict_dset
        (okDict_dset (okDict_baseDict hd) (Or.inr (dgetD_not_none hd rfl)))
        (Or.inr (dgetD_not_none hd rfl)))
      (Or.inr rfl)
  · rw [if_neg hn]
    split
    · exact okDict_dset (okDict_dset (okDict_baseDict hd) (Or.inr rfl))
        (Or.inr (dgetD_not_none hd rfl))
    · exact okDict_dset (okDict_baseDict hd) (Or.inr rfl)

theorem okDict_format_item {item : Dict} {b : Bool}
    (h1 : cleanD (dataOf item) = true) (h2 : cleanD (metaOf item) = true)
    (h3 : (dlookup item ("BBT_key")).all (fun v => !(isNone v)) = true) :
    okDict (format_item item b) := by
  simp only [format_item]
  refine okDict_addIf (okDict_addIf (okDict_addIf (okDict_addIf (okDict_addIf
    (okDict_addIf (okDict_branchDict h1) ?_) ?_) ?_) ?_) ?_) ?_
  · intro hc
    obtain ⟨v, hv⟩ := Option.isSome_iff_exists.mp hc
    exact Or.inr (by rw [ditem, hv]; exact dlookup_clean_not_none h1 hv)
  · intro hc
    obtain ⟨v, hv⟩ := Option.isSome_iff_exists.mp hc
    exact Or.inr (by rw [ditem, hv]; exact dlookup_clean_not_none h1 hv)
  · intro hc
    obtain ⟨v, hv⟩ := Option.isSome_iff_exists.mp hc
    exact Or.inr (by rw [ditem, hv]; exact dlookup_clean_not_none h1 hv)
  · intro _
    exact Or.inr rfl
  · intro _
    exact Or.inr (dgetD_not_none h2 rfl)
  · intro hc
    obtain ⟨v, hv⟩ := Option.isSome_iff_exists.mp hc
    refine Or.inr ?_
    rw [ditem, hv]
    rw [hv] at h3
    simpa using h3

/-- Counterexample to Claim C2 as stated: formatting a record whose data
lacks a `key` field emits the output key `key` with a null value
(`data.get("key")`, line 106). -/
theorem format_item_null_key_cex :
    dlookup (format_item ([] : Dict) true) ("key") = some PyVal.none := rfl

/-- Claim C2, amended: provided the fields present on the raw record (its
data, its `meta` dict, and an attached `BBT_key`) are themselves non-null,
the only output entry that can be null is the record key field, which is
emitted as null exactly when the source data lacks it; every other missing
field is replaced by a non-null default or omitted. -/
theorem format_item_no_null (item : Dict) (b : Bool)
    (h1 : cleanD (dataOf item) = true) (h2 : cleanD (metaOf item) = true)
    (h3 : (dlookup item ("BBT_key")).all (fun v => !(isNone v)) = true) :
    (∀ (k : String) (v : PyVal),
      dlookup (format_item item b) k = some v → v = PyVal.none →
      k = ("key" : String)) ∧
    dlookup (format_item item b) ("key")
      = some (dgetD (dataOf item) ("key") PyVal.none) := by
  constructor
  · intro k v hl hv
    rcases okDict_format_item h1 h2 h3 (k, v) (mem_of_dlookup hl) with h | h
    · exact h
    · rw [hv] at h
      cases h
  · rw [dlookup_format_item_passthrough item b _ (by decide) (by decide) (by decide)
      (by decide) (by decide) (by decide), dlookup_branchDict_key]

/-- A record whose data does carry a `key`. -/
def itemC2 : Dict := [("data", PyVal.dict [("key", PyVal.str ("ABC123").toList)])]

/-- Witness for C2 (amended): on a clean record the theorem applies and the
`key` field carries the source value. -/
theorem format_item_no_null_witness :
    cleanD (dataOf itemC2) = true ∧
    dlookup (format_item itemC2 true) ("key")
      = some (PyVal.str ("ABC123").toList) := by
  have h := (format_item_no_null itemC2 true (by decide) (by decide) (by decide)).2
  exact ⟨by decide, by rw [h]; rfl⟩

/-! ## Claim C9: `get_items_metadata` (zotero.py lines 452-512) -/

/-- Python `s.split(',')`. -/
def splitOnComma : Str → List Str
  | [] => [[]]
  | x :: rest =>
    match splitOnComma rest with
    | [] => [[]]
    | h :: t => if x = ',' then [] :: h :: t else (x :: h) :: t

/-- `[p.strip() for p in item_key.split(',')]` (line 469). -/
def pySplitStrip (s : Str) : List Str := (splitOnComma s).map pyStrip

/-- `item["key"]`: the top-level key of a fetched item (totalised; the
theorems only use libraries whose items carry a string key). -/
def itemTopKey (it : Dict) : Str := asStr (dgetD it ("key") PyVal.none)

/-- Lines 485-486: `for key, BBT_key in bbt_keys.items():
items[key]["BBT_key"] = BBT_key`. -/
def applyBBT (items : List (Str × Dict)) (m : List (Str × Str)) :
    List (Str × Dict) :=
  m.foldl (fun acc p =>
    acc.map (fun q =>
      if q.1 = p.1 then (q.1, dset q.2 ("BBT_key") (PyVal.str p.2)) else q)) items

/-- The four payload shapes `get_items_metadata` can return: the not-found
advisory (lines 475-480), a plain items list (line 504), items plus a
missing-keys advisory (lines 492-502), and the catch-all error payload of
the outer handler (lines 506-512). -/
inductive MetaResult where
  | notFound (missing : List Str)
  | success (items : List Dict)
  | successWithLog (missing : List Str) (items : List Dict)
  | failure (msg : Str)

/-- Lines 490-504: format the (possibly enriched) items, and attach the
missing-keys advisory when fewer items than requested keys were resolved.
Python builds `missing_keys` as a set difference whose iteration order is
unspecified; the model uses first-occurrence order. -/
def finishMeta (items : List (Str × Dict)) (item_keys : List Str) : MetaResult :=
  let formatted := items.map (fun p => format_item p.2 true)
  if items.length < item_keys.length then
    MetaResult.successWithLog
      ((item_keys.dedup).filter (fun k => !((items.map Prod.fst).contains k)))
      formatted
  else MetaResult.success formatted

/-- `get_items_metadata` (lines 452-512).  The library is a list of raw
items with pairwise distinct top-level keys; `get_subset` is their
retrieval by key; `bbt` is the outcome of the `citation_keys` call and
`hasContext` whether a diagnostics context was supplied.  Note line 488:
the handler for a failed citation-key lookup calls `context.warning`
without the `context and hasattr` guard used by every other handler, so
with no context it raises AttributeError, which the outer handler turns
into the catch-all error payload. -/
def get_items_metadata_model (lib : List Dict) (item_key : Str)
    (include_bibtex : Bool) (bbt : Except Str (List (Str × Str)))
    (hasContext : Bool) : MetaResult :=
  let item_keys := pySplitStrip item_key
  let fetched := lib.filter (fun it => item_keys.contains (itemTopKey it))
  let items : List (Str × Dict) := fetched.map (fun it => (itemTopKey it, it))
  if items.length = 0 then MetaResult.notFound item_keys
  else if include_bibtex then
    match bbt with
    | Except.ok m => finishMeta (applyBBT items m) item_keys
    | Except.error _ =>
      if hasContext then finishMeta items item_keys
      else MetaResult.failure ("Failed to fetch item details: AttributeError").toList
  else finishMeta items item_keys

/-- A library holding the single item `A`. -/
def lib0 : List Dict :=
  [[ ("key", PyVal.str ("A").toList),
     ("data", PyVal.dict [("key", PyVal.str ("A").toList),
                          ("title", PyVal.str ("X").toList)]) ]]

/-- Claim C9 (code bug), evaluated at the failing input: requesting `A,B`
against a library holding only `A`, with citation keys requested (the
default), the companion service failing, and no diagnostics context, the
partial fetch comes back as a hard error payload instead of a success
payload with a missing-keys advisory. -/
theorem get_items_metadata_mixed_fetch_failure :
    get_items_metadata_model lib0 ("A,B").toList true
        (Except.error ("Better BibTeX is not available").toList) false
      = MetaResult.failure ("Failed to fetch item details: AttributeError").toList := rfl

/-- With a diagnostics context present the same partial fetch does return
the success payload with the advisory naming exactly the missing key. -/
theorem get_items_metadata_mixed_fetch_with_context :
    ∃ fs, get_items_metadata_model lib0 ("A,B").toList true
        (Except.error ("Better BibTeX is not available").toList) true
      = MetaResult.successWithLog [("B").toList] fs := ⟨_, rfl⟩

/-! ## Claim C10: the recent-items fetch limit (zotero.py lines 357-389) -/

/-- Line 370: `limit_int = min(int(limit or 10), 100)`.  Python `or`
replaces a falsy limit, i.e. `None` or `0`, by the default 10. -/
def recentItemsLimit (limit : Option Int) : Int :=
  min (match limit with
       | Option.none => 10
       | some n => if n = 0 then 10 else n) 100

/-- Claim C10: the effective fetch limit passed to the underlying library
is capped at 100, and defaults to 10 when no limit is supplied. -/
theorem recentItemsLimit_cap :
    (∀ l : Option Int, recentItemsLimit l ≤ 100) ∧
    recentItemsLimit Option.none = 10 := by
  constructor
  · intro l
    exact min_le_right _ _
  · rfl
